import Mathlib

/-!
# Filter-and-list renderer and CSRF hook of `my_ecomm`

A shallow embedding of `app/authentication/static/js/filtercontents.js` and of
the cookie / `beforeSend` part of `app/authentication/static/js/resetPassword.js`.

JavaScript strings are Lean strings, `null` is `none`.  The browser objects the
scripts talk to are explicit state:

* `localStorage` is a finite map from keys to strings (`Storage`);
* `$.ajax(settings)` records `settings` in the list of issued requests;
* `$('#listcategories').append(html)` records `html` as the next child markup
  of the container;
* `console.log(x)` records `x`.
-/

namespace FilterContents

/-! ## `localStorage` -/

/-- The `localStorage` object: `getItem` gives `null` (`none`) for a key that is not set. -/
abbrev Storage := String → Option String

/-- The call `localStorage.getItem(key)`. -/
def getItem (key : String) (s : Storage) : Option String := s key

/-- The call `localStorage.setItem(key, value)`. -/
def setItem (key value : String) (s : Storage) : Storage :=
  fun k => if k = key then some value else s k

/-- The call `localStorage.removeItem(key)`. -/
def removeItem (key : String) (s : Storage) : Storage :=
  fun k => if k = key then none else s k

/-- A storage with no key set. -/
def emptyStorage : Storage := fun _ => none

/-! ## Data exchanged with the backend -/

/-- One record of a category response.  `id` is held in the string form that
JavaScript's `+` gives it inside the markup; `selected` is `none` when the
record has no such field (the unscoped endpoint). -/
structure Category where
  id : String
  name : String
  selected : Option Bool

/-- The object handed to an `error` callback; only its `error` property is read. -/
structure Xhr where
  error : String

/-- The three `$.ajax` calls of the on-load handler, in source order. -/
inductive Branch where
  | unscoped
  | person
  | type
  deriving DecidableEq, Repr

/-- The settings object of one `$.ajax` call; `branch` names the pair of
`success` / `error` closures that the call carries. -/
structure Ajax where
  method : String
  url : String
  cache : Bool
  dataType : String
  branch : Branch

/-- How an issued request ends. -/
inductive Response where
  | success (data : List Category)
  | failure (xhr : Xhr)

/-- The browser state the scripts read and write. -/
structure Page where
  storage : Storage
  requests : List Ajax
  listcategories : List String
  console : List String

/-- The call `$.ajax(settings)`: the request is issued, its callbacks run later. -/
def ajax (settings : Ajax) (p : Page) : Page :=
  { p with requests := p.requests ++ [settings] }

/-- The call `$('#listcategories').append(html)`. -/
def append (html : String) (p : Page) : Page :=
  { p with listcategories := p.listcategories ++ [html] }

/-- The call `console.log(x)`. -/
def consoleLog (x : String) (p : Page) : Page :=
  { p with console := p.console ++ [x] }

/-! ## Markup built by the `success` callbacks -/

/-- The string appended by the unscoped `success` callback (line 12). -/
def unscopedItem (c : Category) : String :=
  "<li ><a href=\"" ++ "?category=" ++ c.id ++ "\"+> " ++ c.name ++ "</a></li>"

/-- The string appended by the person-scoped and type-scoped `success`
callbacks (lines 32 and 52).  The text between the template braces is part of
the JavaScript string literal. -/
def scopedItem (c : Category) : String :=
  "<li \x7b% if data[index].selected %\x7d class=\"selected\"\x7b% endif %\x7d><a href=\""
    ++ "?category=" ++ c.id ++ "\"+> " ++ c.name ++ "</a></li>"

/-- The markup a `success` callback appends for one record. -/
def itemMarkup : Branch → Category → String
  | .unscoped, c => unscopedItem c
  | .person, c => scopedItem c
  | .type, c => scopedItem c

/-- The `success` callback of a branch: `for (index in data) append(...)`. -/
def success (b : Branch) (data : List Category) (p : Page) : Page :=
  data.foldl (fun q c => append (itemMarkup b c) q) p

/-- The `error` callback of a branch: `console.log(data.error)`. -/
def error (_b : Branch) (data : Xhr) (p : Page) : Page :=
  consoleLog data.error p

/-! ## The on-load handler -/

/-- The `$(document).ready` handler of `filtercontents.js` (lines 1-65). -/
def ready (p : Page) : Page :=
  let testpersonid := getItem "personid" p.storage
  let testtypeid := getItem "typeid" p.storage
  let p1 : Page :=
    if (testpersonid = none ∧ testtypeid = none) ∨ testpersonid = some "All"
        ∨ testtypeid = some "All" then
      ajax { method := "GET", url := "/api/v1/categories/", cache := false,
             dataType := "json", branch := .unscoped } p
    else
      match testpersonid with
      | some pid =>
        let q := ajax { method := "GET", url := "/api/v1/person/" ++ pid ++ "/categories/",
                        cache := false, dataType := "json", branch := .person } p
        { q with storage := removeItem "personid" q.storage }
      | none =>
        match testtypeid with
        | some tid =>
          let q := ajax { method := "GET", url := "/api/v1/type/" ++ tid ++ "/categories/",
                          cache := false, dataType := "json", branch := .type } p
          { q with storage := removeItem "typeid" q.storage }
        | none => p
  let p2 : Page := { p1 with storage := removeItem "personid" p1.storage }
  { p2 with storage := removeItem "typeid" p2.storage }

/-- The callback of request `rq` that runs when the request ends with `r`. -/
def complete (r : Response) (rq : Ajax) (p : Page) : Page :=
  match r with
  | .success data => success rq.branch data p
  | .failure xhr => error rq.branch xhr p

/-- A page in which nothing has happened yet: the given storage, no request
issued, an empty `#listcategories`, an empty console. -/
def freshPage (s : Storage) : Page :=
  { storage := s, requests := [], listcategories := [], console := [] }

/-- One page load: the on-load handler runs to its end, then every request it
issued ends with `r` and the matching callback runs. -/
def load (r : Response) (p : Page) : Page :=
  let q := ready p
  (q.requests.drop p.requests.length).foldl (fun acc rq => complete r rq acc) q

/-- The URLs of the requests issued by the on-load handler on page `p`. -/
def requestedUrls (p : Page) : List String :=
  ((ready p).requests.drop p.requests.length).map (fun rq => rq.url)

/-! ## The click handlers -/

/-- A node of the document: character data, or an element with its `id`, its
classes and its children. -/
inductive Node where
  | textNode (data : String)
  | element (id : String) (classes : List String) (children : List Node)

mutual
/-- The call `$(node).text()`: the character data of the node and of all its
descendants, in document order. -/
def Node.text : Node → String
  | .textNode data => data
  | .element _ _ children => textOfNodes children
/-- The text of a list of sibling nodes. -/
def textOfNodes : List Node → String
  | [] => ""
  | n :: ns => n.text ++ textOfNodes ns
end

/-- The property `node.id`. -/
def Node.id : Node → String
  | .textNode _ => ""
  | .element id _ _ => id

/-- Whether the node is an element; only elements are clicked. -/
def Node.isElement : Node → Bool
  | .textNode _ => false
  | .element _ _ _ => true

/-- Whether the node matches the selector `.cls`. -/
def Node.hasClass (cls : String) : Node → Bool
  | .textNode _ => false
  | .element _ classes _ => classes.contains cls

/-- The click handler delegated to `.admin-filter-person` (lines 67-71);
`this` is the matched element and `target` is `e.target`. -/
def clickAdminFilterPerson (this target : Node) (p : Page) : Page :=
  let _clickId := this.id
  let id := target.text
  { p with storage := setItem "personid" id p.storage }

/-- The click handler delegated to `.admin-filter-type` (lines 73-77);
`this` is the matched element and `target` is `e.target`. -/
def clickAdminFilterType (this target : Node) (p : Page) : Page :=
  let _clickId := this.id
  let id := target.text
  { p with storage := setItem "typeid" id p.storage }

/-- The nodes from `root` down to the node reached by taking, at each step, the
child with the given index. -/
def nodesOnPath : Node → List Nat → Option (List Node)
  | root, [] => some [root]
  | .textNode _, _ :: _ => none
  | .element id classes children, i :: path =>
    match children.get? i with
    | none => none
    | some child =>
      (nodesOnPath child path).map (fun nodes => Node.element id classes children :: nodes)

/-- The delegated handlers of `$(document).on('click', selector, ...)` at one
element `cur` of the propagation path, in the order of registration. -/
def dispatch (target : Node) (p : Page) (cur : Node) : Page :=
  let p1 := if cur.hasClass "admin-filter-person" then clickAdminFilterPerson cur target p else p
  if cur.hasClass "admin-filter-type" then clickAdminFilterType cur target p1 else p1

/-- A click on the element of `document` at `path`: the delegated handlers run
for the target and then for each of its ancestors, innermost first. -/
def click (document : Node) (path : List Nat) (p : Page) : Option Page :=
  match (nodesOnPath document path).map List.reverse with
  | some (target :: ancestors) =>
    if target.isElement then some ((target :: ancestors).foldl (dispatch target) p) else none
  | _ => none

end FilterContents

/-! ## Reading the appended markup

`append` hands its string to the browser, which reads it as HTML.  The part of
the HTML tokenizer (WHATWG HTML, "Tokenization") that tags, attributes and
character data go through is modelled here, state by state.  An `&` that
begins no character reference is character data; named and numeric character
references, comments, declarations, NUL, carriage return and the raw-text
elements are outside the model, and markup that uses them has no reading.
-/



namespace Html

/-- A token of markup: a start tag with its attributes, an end tag, or a run of
character data. -/
inductive Token where
  | startTag (name : String) (attrs : List (String × String))
  | endTag (name : String)
  | text (s : String)
  deriving DecidableEq, Repr

/-- The tokenizer states that tags, attributes and character data go through. -/
inductive Mode where
  | data
  | tagOpen
  | endTagOpen
  | tagName
  | beforeAttributeName
  | attributeName
  | afterAttributeName
  | beforeAttributeValue
  | attributeValueDoubleQuoted
  | attributeValueSingleQuoted
  | attributeValueUnquoted
  | afterAttributeValueQuoted
  | selfClosingStartTag
  | characterReferenceData
  | characterReferenceDoubleQuoted
  | characterReferenceSingleQuoted
  | characterReferenceUnquoted
  | unsupported
  deriving DecidableEq, Repr

/-- The tokenizer: its state, the tokens emitted so far, the pending character
data, and the tag token under construction (with the attribute being read). -/
structure Tokenizer where
  mode : Mode
  tokens : List Token
  chars : String
  isEndTag : Bool
  name : String
  attrs : List (String × String)
  attr : Option (String × String)
  deriving DecidableEq, Repr

/-- Tab, line feed, form feed and space. -/
def isWhitespace (c : Char) : Bool :=
  c = '\t' || c = '\n' || c = '\x0c' || c = ' '

/-- Elements whose content is not tokenized as ordinary markup. -/
def rawTextElements : List String :=
  ["script", "style", "textarea", "title", "xmp", "iframe", "noembed", "noframes",
   "noscript", "plaintext"]

/-- The attributes of the tag under construction once the attribute being read
is closed: an attribute whose name the tag already has is dropped. -/
def commitAttr (t : Tokenizer) : List (String × String) :=
  match t.attr with
  | none => t.attrs
  | some a => if t.attrs.any (fun b => b.1 = a.1) then t.attrs else t.attrs ++ [a]

/-- The pending character data as a token, if there is any. -/
def flushChars (t : Tokenizer) : List Token :=
  if t.chars = "" then t.tokens else t.tokens ++ [Token.text t.chars]

/-- Emit the tag under construction and return to the data state. -/
def emitTag (t : Tokenizer) : Tokenizer :=
  if t.isEndTag then
    { mode := .data, tokens := flushChars t ++ [Token.endTag t.name], chars := "",
      isEndTag := false, name := "", attrs := [], attr := none }
  else if rawTextElements.contains t.name then
    { t with mode := .unsupported }
  else
    { mode := .data, tokens := flushChars t ++ [Token.startTag t.name (commitAttr t)],
      chars := "", isEndTag := false, name := "", attrs := [], attr := none }

/-- Start a new attribute whose name begins with `c`. -/
def startAttr (t : Tokenizer) (c : Char) : Tokenizer :=
  { t with mode := .attributeName, attrs := commitAttr t,
           attr := some (String.singleton c.toLower, "") }

/-- Append `c` to the name of the attribute being read. -/
def pushAttrName (t : Tokenizer) (c : Char) : Tokenizer :=
  match t.attr with
  | none => t
  | some a => { t with attr := some (a.1.push c.toLower, a.2) }

/-- Append `c` to the value of the attribute being read. -/
def pushAttrValue (t : Tokenizer) (c : Char) : Tokenizer :=
  match t.attr with
  | none => t
  | some a => { t with attr := some (a.1, a.2.push c) }

/-- Whether `c`, met right after `&`, can begin a named or numeric character
reference: the names all begin with a letter. -/
def startsReference (c : Char) : Bool :=
  c.isAlpha || c = '#'

/-- Data state. -/
def dataStep (t : Tokenizer) (c : Char) : Tokenizer :=
  if c = '<' then { t with mode := .tagOpen }
  else if c = '&' then { t with mode := .characterReferenceData }
  else { t with mode := .data, chars := t.chars.push c }

/-- Attribute value (double-quoted) state. -/
def attributeValueDoubleQuotedStep (t : Tokenizer) (c : Char) : Tokenizer :=
  if c = '"' then { t with mode := .afterAttributeValueQuoted }
  else if c = '&' then { t with mode := .characterReferenceDoubleQuoted }
  else pushAttrValue { t with mode := .attributeValueDoubleQuoted } c

/-- Attribute value (single-quoted) state. -/
def attributeValueSingleQuotedStep (t : Tokenizer) (c : Char) : Tokenizer :=
  if c = '\'' then { t with mode := .afterAttributeValueQuoted }
  else if c = '&' then { t with mode := .characterReferenceSingleQuoted }
  else pushAttrValue { t with mode := .attributeValueSingleQuoted } c

/-- After attribute name state. -/
def afterAttributeNameStep (t : Tokenizer) (c : Char) : Tokenizer :=
  if isWhitespace c then { t with mode := .afterAttributeName }
  else if c = '/' then { t with mode := .selfClosingStartTag }
  else if c = '=' then { t with mode := .beforeAttributeValue }
  else if c = '>' then emitTag t
  else startAttr t c

/-- Before attribute name state. -/
def beforeAttributeNameStep (t : Tokenizer) (c : Char) : Tokenizer :=
  if isWhitespace c then { t with mode := .beforeAttributeName }
  else if c = '/' || c = '>' then afterAttributeNameStep t c
  else startAttr t c

/-- Attribute value (unquoted) state. -/
def attributeValueUnquotedStep (t : Tokenizer) (c : Char) : Tokenizer :=
  if isWhitespace c then { t with mode := .beforeAttributeName }
  else if c = '&' then { t with mode := .characterReferenceUnquoted }
  else if c = '>' then emitTag t
  else pushAttrValue { t with mode := .attributeValueUnquoted } c

/-- One input character.  A character outside the modelled part of the
language (NUL, carriage return, a comment or declaration, an `&` that begins a
named or numeric character reference) leads to the state `unsupported`, which
is never left; an `&` that begins no reference is character data. -/
def step (t : Tokenizer) (c : Char) : Tokenizer :=
  if c = '\x00' || c = '\r' then { t with mode := .unsupported } else
  match t.mode with
  | .unsupported => t
  | .data => dataStep t c
  | .tagOpen =>
    if c = '/' then { t with mode := .endTagOpen }
    else if c.isAlpha then
      { t with mode := .tagName, isEndTag := false, name := String.singleton c.toLower,
               attrs := [], attr := none }
    else if c = '!' || c = '?' then { t with mode := .unsupported }
    else dataStep { t with chars := t.chars.push '<' } c
  | .endTagOpen =>
    if c.isAlpha then
      { t with mode := .tagName, isEndTag := true, name := String.singleton c.toLower,
               attrs := [], attr := none }
    else if c = '>' then { t with mode := .data }
    else { t with mode := .unsupported }
  | .tagName =>
    if isWhitespace c then { t with mode := .beforeAttributeName }
    else if c = '/' then { t with mode := .selfClosingStartTag }
    else if c = '>' then emitTag t
    else { t with name := t.name.push c.toLower }
  | .beforeAttributeName => beforeAttributeNameStep t c
  | .attributeName =>
    if isWhitespace c || c = '/' || c = '>' then afterAttributeNameStep t c
    else if c = '=' then { t with mode := .beforeAttributeValue }
    else pushAttrName t c
  | .afterAttributeName => afterAttributeNameStep t c
  | .beforeAttributeValue =>
    if isWhitespace c then t
    else if c = '"' then { t with mode := .attributeValueDoubleQuoted }
    else if c = '\'' then { t with mode := .attributeValueSingleQuoted }
    else if c = '>' then emitTag t
    else attributeValueUnquotedStep t c
  | .attributeValueDoubleQuoted => attributeValueDoubleQuotedStep t c
  | .attributeValueSingleQuoted => attributeValueSingleQuotedStep t c
  | .attributeValueUnquoted => attributeValueUnquotedStep t c
  | .afterAttributeValueQuoted => beforeAttributeNameStep t c
  | .selfClosingStartTag =>
    if c = '>' then emitTag t else beforeAttributeNameStep t c
  | .characterReferenceData =>
    if startsReference c then { t with mode := .unsupported }
    else dataStep { t with chars := t.chars.push '&' } c
  | .characterReferenceDoubleQuoted =>
    if startsReference c then { t with mode := .unsupported }
    else attributeValueDoubleQuotedStep (pushAttrValue t '&') c
  | .characterReferenceSingleQuoted =>
    if startsReference c then { t with mode := .unsupported }
    else attributeValueSingleQuotedStep (pushAttrValue t '&') c
  | .characterReferenceUnquoted =>
    if startsReference c then { t with mode := .unsupported }
    else attributeValueUnquotedStep (pushAttrValue t '&') c

/-- The tokenizer before the first character. -/
def start : Tokenizer :=
  { mode := .data, tokens := [], chars := "", isEndTag := false, name := "", attrs := [],
    attr := none }

/-- The tokens at the end of the input: pending character data is emitted, an
unfinished tag is dropped. -/
def finish (t : Tokenizer) : Option (List Token) :=
  match t.mode with
  | .unsupported => none
  | .tagOpen => some (flushChars { t with chars := t.chars.push '<' })
  | .endTagOpen => some (flushChars { t with chars := (t.chars.push '<').push '/' })
  | .characterReferenceData => some (flushChars { t with chars := t.chars.push '&' })
  | _ => some (flushChars t)

/-- The tokens of a piece of markup, or `none` when the markup leaves the
modelled part of the language. -/
def tokenize (html : String) : Option (List Token) :=
  finish (html.data.foldl step start)

/-- The character data of a token list, tags left out. -/
def textContent : List Token → String
  | [] => ""
  | Token.text s :: ts => s ++ textContent ts
  | _ :: ts => textContent ts

/-- A list item that holds one anchor that holds only character data. -/
structure ListItem where
  attrs : List (String × String)
  anchorAttrs : List (String × String)
  anchorText : String
  deriving DecidableEq, Repr

/-- Read a token list as one `li` element whose only child is one `a` element
whose only child is character data. -/
def readItem : List Token → Option ListItem
  | [Token.startTag li attrs, Token.startTag a anchorAttrs, Token.text s, Token.endTag a2,
      Token.endTag li2] =>
    if li = "li" ∧ a = "a" ∧ a2 = "a" ∧ li2 = "li" then
      some { attrs := attrs, anchorAttrs := anchorAttrs, anchorText := s }
    else none
  | [Token.startTag li attrs, Token.startTag a anchorAttrs, Token.endTag a2, Token.endTag li2] =>
    if li = "li" ∧ a = "a" ∧ a2 = "a" ∧ li2 = "li" then
      some { attrs := attrs, anchorAttrs := anchorAttrs, anchorText := "" }
    else none
  | _ => none

/-- The value of attribute `name`, if the element has it. -/
def getAttribute (name : String) (attrs : List (String × String)) : Option String :=
  attrs.lookup name

/-- Split at white space, empty pieces left out. -/
def splitWhitespace : List Char → List Char → List String
  | [], [] => []
  | [], acc => [String.mk acc.reverse]
  | c :: cs, acc =>
    if isWhitespace c then
      (if acc = [] then splitWhitespace cs [] else String.mk acc.reverse :: splitWhitespace cs [])
    else splitWhitespace cs (c :: acc)

/-- Whether the element has class `cls`. -/
def hasClass (cls : String) (attrs : List (String × String)) : Bool :=
  match getAttribute "class" attrs with
  | none => false
  | some v => (splitWhitespace v.data []).contains cls

end Html

namespace Html

/-- Whether the character after a `<` makes it open a tag, a comment or a
declaration; at the end of the text nothing does. -/
def opensTag : Option Char → Bool
  | none => false
  | some d => d.isAlpha || d = '/' || d = '!' || d = '?'

/-- Whether the character after an `&` makes it begin a character reference;
at the end of the text nothing does. -/
def opensReference : Option Char → Bool
  | none => false
  | some d => startsReference d

/-- Text without markup: no `<` that opens a tag, no `&` that begins a
character reference, no NUL, no carriage return. -/
def plainText : List Char → Bool
  | [] => true
  | c :: cs =>
    (c != '\x00' && c != '\r' && (c != '<' || !opensTag cs.head?)
      && (c != '&' || !opensReference cs.head?)) && plainText cs

/-- An attribute value without markup: no double quote, no `&` that begins a
character reference, no NUL, no carriage return. -/
def plainValue : List Char → Bool
  | [] => true
  | c :: cs =>
    (c != '\x00' && c != '\r' && c != '"' && (c != '&' || !opensReference cs.head?))
      && plainValue cs

/-- A record whose `id` stays inside the quoted `href` value and whose `name`
stays character data. -/
def plainRecord (c : FilterContents.Category) : Bool :=
  plainValue c.id.data && plainText c.name.data

/-- The list item that a piece of markup stands for, if it is one. -/
def parseItem (html : String) : Option ListItem :=
  (tokenize html).bind readItem

end Html

namespace ResetPassword

/-- The characters `jQuery.trim` strips: the class `\s` of JavaScript regular
expressions together with U+FEFF and U+00A0. -/
def isTrimSpace (c : Char) : Bool :=
  c.toNat = 0x09 || c.toNat = 0x0A || c.toNat = 0x0B || c.toNat = 0x0C || c.toNat = 0x0D
    || c.toNat = 0x20 || c.toNat = 0xA0 || c.toNat = 0x1680
    || (0x2000 ≤ c.toNat && c.toNat ≤ 0x200A)
    || c.toNat = 0x2028 || c.toNat = 0x2029 || c.toNat = 0x202F || c.toNat = 0x205F
    || c.toNat = 0x3000 || c.toNat = 0xFEFF

/-- The call `jQuery.trim(s)`, on the characters of `s`. -/
def trim (s : List Char) : List Char :=
  ((s.dropWhile isTrimSpace).reverse.dropWhile isTrimSpace).reverse

/-- The call `s.split(sep)` for a one-character separator, on the characters of `s`. -/
def split (sep : Char) : List Char → List (List Char)
  | [] => [[]]
  | c :: cs =>
    if c = sep then [] :: split sep cs
    else
      match split sep cs with
      | [] => [[c]]
      | piece :: pieces => (c :: piece) :: pieces

/-- The loop of `getCookie` (lines 8-14): the first cookie that, once trimmed,
begins with `name + '='` gives the value, and the loop stops there. -/
def getCookieLoop (decodeURIComponent : String → String) (name : String) :
    List (List Char) → Option String
  | [] => none
  | raw :: rest =>
    let cookie := trim raw
    if cookie.take (name.length + 1) = (name ++ "=").data then
      some (decodeURIComponent (String.mk (cookie.drop (name.length + 1))))
    else getCookieLoop decodeURIComponent name rest

/-- The function `getCookie(name)` (lines 4-17); `documentCookie` is
`document.cookie` and `decodeURIComponent` the built-in of that name. -/
def getCookie (decodeURIComponent : String → String) (documentCookie : String)
    (name : String) : Option String :=
  if documentCookie ≠ "" then
    getCookieLoop decodeURIComponent name (split ';' documentCookie.data)
  else none

/-- The request object handed to `beforeSend`: the headers set on it so far. -/
structure XMLHttpRequest where
  headers : List (String × Option String)

/-- The call `xhr.setRequestHeader(name, value)`. -/
def setRequestHeader (name : String) (value : Option String) (xhr : XMLHttpRequest) :
    XMLHttpRequest :=
  { xhr with headers := xhr.headers ++ [(name, value)] }

/-- The test `/^http:.*/.test(url)`: `url` begins with `http:`. -/
def testHttp (url : String) : Bool :=
  url.data.take 5 = "http:".data

/-- The test `/^https:.*/.test(url)`: `url` begins with `https:`. -/
def testHttps (url : String) : Bool :=
  url.data.take 6 = "https:".data

/-- The `beforeSend` hook installed by `$.ajaxSetup` (lines 19-25); `url` is
`settings.url`. -/
def beforeSend (decodeURIComponent : String → String) (documentCookie : String)
    (xhr : XMLHttpRequest) (url : String) : XMLHttpRequest :=
  if !(testHttp url || testHttps url) then
    setRequestHeader "X-CSRFToken" (getCookie decodeURIComponent documentCookie "csrftoken") xhr
  else xhr

end ResetPassword

/-! ## Lemmas -/

namespace FilterContents

theorem person_ne_unscoped (x : String) :
    "/api/v1/person/" ++ x ++ "/categories/" ≠ "/api/v1/categories/" := by
  intro h
  have h2 := congrArg String.data h
  simp at h2

theorem type_ne_unscoped (x : String) :
    "/api/v1/type/" ++ x ++ "/categories/" ≠ "/api/v1/categories/" := by
  intro h
  have h2 := congrArg String.data h
  simp at h2

theorem person_ne_type (x y : String) :
    "/api/v1/person/" ++ x ++ "/categories/" ≠ "/api/v1/type/" ++ y ++ "/categories/" := by
  intro h
  have h2 := congrArg String.data h
  simp at h2

theorem requestedUrls_unscoped (p : Page)
    (h : (getItem "personid" p.storage = none ∧ getItem "typeid" p.storage = none)
      ∨ getItem "personid" p.storage = some "All" ∨ getItem "typeid" p.storage = some "All") :
    requestedUrls p = ["/api/v1/categories/"] := by
  simp [requestedUrls, ready, h, ajax]

theorem requestedUrls_person (p : Page) (pid : String)
    (hp : getItem "personid" p.storage = some pid) (hne : pid ≠ "All")
    (ht : getItem "typeid" p.storage ≠ some "All") :
    requestedUrls p = ["/api/v1/person/" ++ pid ++ "/categories/"] := by
  simp [requestedUrls, ready, hp, hne, ht, ajax]

theorem requestedUrls_type (p : Page) (tid : String)
    (hp : getItem "personid" p.storage = none)
    (ht : getItem "typeid" p.storage = some tid) (hne : tid ≠ "All") :
    requestedUrls p = ["/api/v1/type/" ++ tid ++ "/categories/"] := by
  simp [requestedUrls, ready, hp, hne, ht, ajax]

/-- The on-load handler issues exactly one request, whatever the storage holds. -/
theorem ready_requests (p : Page) : ∃ rq, (ready p).requests = p.requests ++ [rq] := by
  unfold ready
  simp only []
  split
  · exact ⟨_, rfl⟩
  · rename_i h
    split
    · exact ⟨_, rfl⟩
    · rename_i hp
      split
      · exact ⟨_, rfl⟩
      · rename_i ht
        exact absurd (Or.inl ⟨hp, ht⟩) h

/-- The on-load handler leaves `#listcategories` and the console alone. -/
theorem ready_view (p : Page) :
    (ready p).listcategories = p.listcategories ∧ (ready p).console = p.console := by
  unfold ready
  simp only []
  split
  · exact ⟨rfl, rfl⟩
  · split
    · exact ⟨rfl, rfl⟩
    · split <;> exact ⟨rfl, rfl⟩

/-- The on-load handler ends with both keys removed. -/
theorem ready_storage (p : Page) :
    getItem "personid" (ready p).storage = none ∧ getItem "typeid" (ready p).storage = none := by
  constructor <;> simp [ready, getItem, removeItem]

theorem success_listcategories (b : Branch) (data : List Category) (p : Page) :
    (success b data p).listcategories = p.listcategories ++ data.map (itemMarkup b) := by
  unfold success
  induction data generalizing p with
  | nil => simp
  | cons c cs ih =>
    rw [List.foldl_cons, ih]
    simp [append]

theorem success_rest (b : Branch) (data : List Category) (p : Page) :
    (success b data p).storage = p.storage ∧ (success b data p).requests = p.requests
      ∧ (success b data p).console = p.console := by
  unfold success
  induction data generalizing p with
  | nil => simp
  | cons c cs ih =>
    rw [List.foldl_cons]
    exact ih (append (itemMarkup b c) p)

theorem complete_storage (r : Response) (rq : Ajax) (p : Page) :
    (complete r rq p).storage = p.storage := by
  cases r with
  | success data => exact (success_rest rq.branch data p).1
  | failure xhr => rfl

theorem load_storage (r : Response) (p : Page) : (load r p).storage = (ready p).storage := by
  unfold load
  simp only []
  generalize (ready p).requests.drop p.requests.length = rqs
  generalize ready p = q
  induction rqs generalizing q with
  | nil => rfl
  | cons rq rest ih => rw [List.foldl_cons, ih, complete_storage]

end FilterContents

/-! ## Branch selection of the on-load handler -/

namespace FilterContents

/-- C1, as stated, fails: with `personid = "42"` and `typeid = "All"` the
on-load handler requests `/api/v1/categories/`, and the person-scoped URL of
`42` is not requested. -/
theorem person_with_type_all_requests_unscoped :
    getItem "personid" (setItem "typeid" "All" (setItem "personid" "42" emptyStorage)) = some "42"
      ∧ "42" ≠ "All"
      ∧ requestedUrls (freshPage (setItem "typeid" "All" (setItem "personid" "42" emptyStorage)))
          = ["/api/v1/categories/"]
      ∧ "/api/v1/person/" ++ "42" ++ "/categories/"
          ∉ requestedUrls (freshPage (setItem "typeid" "All" (setItem "personid" "42" emptyStorage))) := by
  decide

/-- C1, amended: when `personid` is set to a value other than `"All"` and
`typeid` is not `"All"` (absent or any other string), the on-load handler
requests exactly `"/api/v1/person/" + personid + "/categories/"`, and requests
neither `/api/v1/categories/` nor any type-scoped URL. -/
theorem person_scoped_request (p : Page) (pid : String)
    (hp : getItem "personid" p.storage = some pid) (hne : pid ≠ "All")
    (ht : getItem "typeid" p.storage ≠ some "All") :
    requestedUrls p = ["/api/v1/person/" ++ pid ++ "/categories/"]
      ∧ "/api/v1/categories/" ∉ requestedUrls p
      ∧ ∀ tid : String, "/api/v1/type/" ++ tid ++ "/categories/" ∉ requestedUrls p := by
  have h := requestedUrls_person p pid hp hne ht
  rw [h]
  refine ⟨rfl, ?_, ?_⟩
  · simpa using (person_ne_unscoped pid).symm
  · intro tid
    simpa using (person_ne_type pid tid).symm

theorem person_scoped_request_witness :
    getItem "personid" (freshPage (setItem "typeid" "7" (setItem "personid" "42" emptyStorage))).storage
        = some "42"
      ∧ "42" ≠ "All"
      ∧ requestedUrls (freshPage (setItem "typeid" "7" (setItem "personid" "42" emptyStorage)))
          = ["/api/v1/person/" ++ "42" ++ "/categories/"] :=
  ⟨by decide, by decide,
    (person_scoped_request (freshPage (setItem "typeid" "7" (setItem "personid" "42" emptyStorage)))
      "42" (by decide) (by decide) (by decide)).1⟩

/-- C3: when both keys are absent, or `personid` is `"All"`, or `typeid` is
`"All"`, the on-load handler requests `/api/v1/categories/` and requests no
person-scoped and no type-scoped URL. -/
theorem unscoped_request (p : Page)
    (h : (getItem "personid" p.storage = none ∧ getItem "typeid" p.storage = none)
      ∨ getItem "personid" p.storage = some "All" ∨ getItem "typeid" p.storage = some "All") :
    requestedUrls p = ["/api/v1/categories/"]
      ∧ (∀ pid : String, "/api/v1/person/" ++ pid ++ "/categories/" ∉ requestedUrls p)
      ∧ ∀ tid : String, "/api/v1/type/" ++ tid ++ "/categories/" ∉ requestedUrls p := by
  rw [requestedUrls_unscoped p h]
  refine ⟨rfl, ?_, ?_⟩
  · intro pid
    simpa using person_ne_unscoped pid
  · intro tid
    simpa using type_ne_unscoped tid

theorem unscoped_request_witness :
    getItem "personid" (freshPage (setItem "personid" "All" (setItem "typeid" "7" emptyStorage))).storage
        = some "All"
      ∧ requestedUrls (freshPage (setItem "personid" "All" (setItem "typeid" "7" emptyStorage)))
          = ["/api/v1/categories/"] :=
  ⟨by decide,
    (unscoped_request (freshPage (setItem "personid" "All" (setItem "typeid" "7" emptyStorage)))
      (Or.inr (Or.inl (by decide)))).1⟩

/-- C4: when `personid` is absent and `typeid` is set to a value other than
`"All"`, the on-load handler requests exactly
`"/api/v1/type/" + typeid + "/categories/"` and no other URL. -/
theorem type_scoped_request (p : Page) (tid : String)
    (hp : getItem "personid" p.storage = none)
    (ht : getItem "typeid" p.storage = some tid) (hne : tid ≠ "All") :
    requestedUrls p = ["/api/v1/type/" ++ tid ++ "/categories/"]
      ∧ ∀ url ∈ requestedUrls p, url = "/api/v1/type/" ++ tid ++ "/categories/" := by
  rw [requestedUrls_type p tid hp ht hne]
  exact ⟨rfl, by simp⟩

theorem type_scoped_request_witness :
    getItem "personid" (freshPage (setItem "typeid" "7" emptyStorage)).storage = none
      ∧ getItem "typeid" (freshPage (setItem "typeid" "7" emptyStorage)).storage = some "7"
      ∧ "7" ≠ "All"
      ∧ requestedUrls (freshPage (setItem "typeid" "7" emptyStorage))
          = ["/api/v1/type/" ++ "7" ++ "/categories/"] :=
  ⟨by decide, by decide, by decide,
    (type_scoped_request (freshPage (setItem "typeid" "7" emptyStorage)) "7"
      (by decide) (by decide) (by decide)).1⟩

/-- C5: when `personid` and `typeid` are both set and both differ from `"All"`,
the on-load handler takes the person-scoped branch: it requests
`"/api/v1/person/" + personid + "/categories/"` and does not request the
type-scoped URL. -/
theorem person_takes_priority (p : Page) (pid tid : String)
    (hp : getItem "personid" p.storage = some pid) (hpne : pid ≠ "All")
    (ht : getItem "typeid" p.storage = some tid) (htne : tid ≠ "All") :
    requestedUrls p = ["/api/v1/person/" ++ pid ++ "/categories/"]
      ∧ "/api/v1/type/" ++ tid ++ "/categories/" ∉ requestedUrls p := by
  have h3 : getItem "typeid" p.storage ≠ some "All" := by
    rw [ht]
    intro h
    exact htne (Option.some.inj h)
  rw [requestedUrls_person p pid hp hpne h3]
  refine ⟨rfl, ?_⟩
  simpa using (person_ne_type pid tid).symm

theorem person_takes_priority_witness :
    getItem "personid" (freshPage (setItem "typeid" "9" (setItem "personid" "3" emptyStorage))).storage
        = some "3"
      ∧ getItem "typeid" (freshPage (setItem "typeid" "9" (setItem "personid" "3" emptyStorage))).storage
        = some "9"
      ∧ requestedUrls (freshPage (setItem "typeid" "9" (setItem "personid" "3" emptyStorage)))
          = ["/api/v1/person/" ++ "3" ++ "/categories/"]
      ∧ "/api/v1/type/" ++ "9" ++ "/categories/"
          ∉ requestedUrls (freshPage (setItem "typeid" "9" (setItem "personid" "3" emptyStorage))) :=
  ⟨by decide, by decide,
    person_takes_priority (freshPage (setItem "typeid" "9" (setItem "personid" "3" emptyStorage)))
      "3" "9" (by decide) (by decide) (by decide) (by decide)⟩

/-! ## Storage, clicks and failures -/

/-- C6: for every initial page and every way the request ends (success or
failure), both `personid` and `typeid` are absent from `localStorage` once the
on-load handler has run, and still so after the callback has run. -/
theorem load_clears_storage (r : Response) (p : Page) :
    (getItem "personid" (ready p).storage = none ∧ getItem "typeid" (ready p).storage = none)
      ∧ getItem "personid" (load r p).storage = none
      ∧ getItem "typeid" (load r p).storage = none := by
  rw [load_storage]
  exact ⟨ready_storage p, (ready_storage p).1, (ready_storage p).2⟩

/-- The delegated handlers along a propagation path leave the requests alone
and store the text of the target under the key of every role met on the path. -/
theorem foldl_dispatch (target : Node) (nodes : List Node) (p : Page) :
    (nodes.foldl (dispatch target) p).requests = p.requests
      ∧ getItem "personid" (nodes.foldl (dispatch target) p).storage
          = (if nodes.any (fun n => n.hasClass "admin-filter-person") then some target.text
             else getItem "personid" p.storage)
      ∧ getItem "typeid" (nodes.foldl (dispatch target) p).storage
          = (if nodes.any (fun n => n.hasClass "admin-filter-type") then some target.text
             else getItem "typeid" p.storage) := by
  induction nodes generalizing p with
  | nil => simp
  | cons n ns ih =>
    rw [List.foldl_cons]
    obtain ⟨h1, h2, h3⟩ := ih (dispatch target p n)
    rw [h1, h2, h3]
    cases hp : n.hasClass "admin-filter-person" <;> cases ht : n.hasClass "admin-filter-type" <;>
      simp [dispatch, hp, ht, clickAdminFilterPerson, clickAdminFilterType, getItem, setItem]

/-- C8, as stated, fails: in the person-filter element `Ann <b>Lee</b>`, whose
text is `Ann Lee`, a click that lands on the inner element stores
`personid = "Lee"`. -/
theorem click_on_child_stores_child_text :
    (Node.element "" ["admin-filter-person"]
        [Node.textNode "Ann ", Node.element "" [] [Node.textNode "Lee"]]).text = "Ann Lee"
      ∧ (click (Node.element "" ["admin-filter-person"]
            [Node.textNode "Ann ", Node.element "" [] [Node.textNode "Lee"]]) [1]
          (freshPage emptyStorage)).map (fun q => getItem "personid" q.storage)
          = some (some "Lee")
      ∧ (click (Node.element "" ["admin-filter-person"]
            [Node.textNode "Ann ", Node.element "" [] [Node.textNode "Lee"]]) [1]
          (freshPage emptyStorage)).map (fun q => getItem "personid" q.storage)
          ≠ some (some "Ann Lee") := by
  decide

/-- C8, amended: a click whose target (the innermost clicked element) has text
`s` and is, or lies inside, a `.admin-filter-person` element leaves
`personid = s` in `localStorage`; one that is, or lies inside, a
`.admin-filter-type` element leaves `typeid = s`; so a click that lands on the
role element itself stores the text of that element.  No click issues a
request. -/
theorem click_stores_target_text (document : Node) (path : List Nat) (p : Page)
    (target : Node) (ancestors : List Node)
    (hpath : (nodesOnPath document path).map List.reverse = some (target :: ancestors))
    (helem : target.isElement = true) :
    ∃ q, click document path p = some q
      ∧ q.requests = p.requests
      ∧ ((∃ n ∈ target :: ancestors, n.hasClass "admin-filter-person" = true) →
          getItem "personid" q.storage = some target.text)
      ∧ ((∃ n ∈ target :: ancestors, n.hasClass "admin-filter-type" = true) →
          getItem "typeid" q.storage = some target.text)
      ∧ (target.hasClass "admin-filter-person" = true →
          getItem "personid" q.storage = some target.text)
      ∧ (target.hasClass "admin-filter-type" = true →
          getItem "typeid" q.storage = some target.text) := by
  obtain ⟨h1, h2, h3⟩ := foldl_dispatch target (target :: ancestors) p
  have hP : (∃ n ∈ target :: ancestors, n.hasClass "admin-filter-person" = true) →
      getItem "personid" ((target :: ancestors).foldl (dispatch target) p).storage
        = some target.text := by
    intro hex
    rw [h2, if_pos (List.any_eq_true.mpr hex)]
  have hT : (∃ n ∈ target :: ancestors, n.hasClass "admin-filter-type" = true) →
      getItem "typeid" ((target :: ancestors).foldl (dispatch target) p).storage
        = some target.text := by
    intro hex
    rw [h3, if_pos (List.any_eq_true.mpr hex)]
  refine ⟨(target :: ancestors).foldl (dispatch target) p, ?_, h1, hP, hT, ?_, ?_⟩
  · simp only [click, hpath, helem, if_true]
  · intro hc
    exact hP ⟨target, by simp, hc⟩
  · intro hc
    exact hT ⟨target, by simp, hc⟩

theorem click_stores_target_text_witness :
    (click (Node.element "" ["admin-filter-person"] [Node.textNode "42"]) []
        (freshPage emptyStorage)).map (fun q => (getItem "personid" q.storage, q.requests.length))
      = some (some "42", 0) := by
  obtain ⟨q, hq, hr, _, _, hs, _⟩ :=
    click_stores_target_text (Node.element "" ["admin-filter-person"] [Node.textNode "42"]) []
      (freshPage emptyStorage) (Node.element "" ["admin-filter-person"] [Node.textNode "42"]) []
      rfl rfl
  rw [hq, Option.map_some', hs rfl, hr]
  rfl

/-- C9: in every branch, when the request fails nothing is appended to
`#listcategories` (the list is as it was before the load) and the only effect
of the failure is one `console.log` entry. -/
theorem failure_leaves_list (xhr : Xhr) (p : Page) :
    (load (Response.failure xhr) p).listcategories = p.listcategories
      ∧ (load (Response.failure xhr) p).console = p.console ++ [xhr.error]
      ∧ ∀ (b : Branch) (q : Page),
          (error b xhr q).listcategories = q.listcategories
            ∧ (error b xhr q).console = q.console ++ [xhr.error]
            ∧ (error b xhr q).requests = q.requests := by
  obtain ⟨rq, h⟩ := ready_requests p
  have hv := ready_view p
  refine ⟨?_, ?_, ?_⟩
  · simp [load, h, complete, error, consoleLog, hv.1]
  · simp [load, h, complete, error, consoleLog, hv.2]
  · intro b q
    exact ⟨rfl, rfl, rfl⟩

end FilterContents

/-! ## Markup of the appended items -/

set_option maxRecDepth 100000

namespace Html

open FilterContents

/-- In the data state a character that opens no tag and no reference becomes
character data, whatever follows it. -/
theorem foldl_data_cons (c d : Char) (m : List Char)
    (hc0 : c ≠ '\x00') (hcr : c ≠ '\r') (hd0 : d ≠ '\x00') (hdr : d ≠ '\r')
    (hlt : c = '<' → opensTag (some d) = false)
    (hamp : c = '&' → opensReference (some d) = false)
    (toks : List Token) (chars : String) (e : Bool) (n : String)
    (as : List (String × String)) (a : Option (String × String)) :
    (c :: d :: m).foldl step ⟨.data, toks, chars, e, n, as, a⟩
      = (d :: m).foldl step ⟨.data, toks, chars.push c, e, n, as, a⟩ := by
  simp only [List.foldl_cons]
  congr 1
  by_cases h1 : c = '<'
  · subst h1
    have h := hlt rfl
    simp [opensTag] at h
    obtain ⟨⟨⟨ha, hs⟩, hb⟩, hq⟩ := h
    simp [step, dataStep, hd0, hdr, ha, hs, hb, hq]
  · by_cases h2 : c = '&'
    · subst h2
      have h := hamp rfl
      simp [opensReference] at h
      simp [step, dataStep, hd0, hdr, h]
    · simp [step, dataStep, hc0, hcr, hd0, hdr, h1, h2]

/-- Text without markup, met in the data state and followed by `<`, is
collected as character data; the `<` then opens a tag. -/
theorem foldl_plainText (l : List Char) (hl : plainText l = true) (rest : List Char)
    (toks : List Token) (chars : String) (e : Bool) (n : String)
    (as : List (String × String)) (a : Option (String × String)) :
    (l ++ '<' :: rest).foldl step ⟨.data, toks, chars, e, n, as, a⟩
      = rest.foldl step ⟨.tagOpen, toks, chars ++ String.mk l, e, n, as, a⟩ := by
  induction l generalizing chars with
  | nil =>
    have : chars ++ String.mk [] = chars := by apply String.ext; simp
    simp [this, step, dataStep]
  | cons c cs ih =>
    simp only [plainText, Bool.and_eq_true, bne_iff_ne, ne_eq, Bool.or_eq_true,
      Bool.not_eq_true'] at hl
    obtain ⟨⟨⟨⟨hc0, hcr⟩, hlt⟩, hamp⟩, hcs⟩ := hl
    have hpush : chars.push c ++ String.mk cs = chars ++ String.mk (c :: cs) := by
      apply String.ext; simp
    rw [← hpush, ← ih hcs]
    cases cs with
    | nil =>
      exact foldl_data_cons c '<' rest hc0 hcr (by decide) (by decide)
        (fun _ => by decide) (fun _ => by decide) toks chars e n as a
    | cons d ds =>
      simp only [plainText, Bool.and_eq_true, bne_iff_ne, ne_eq] at hcs
      obtain ⟨⟨⟨⟨hd0, hdr⟩, _⟩, _⟩, _⟩ := hcs
      exact foldl_data_cons c d (ds ++ '<' :: rest) hc0 hcr hd0 hdr
        (fun h => by simpa [h] using hlt) (fun h => by simpa [h] using hamp) toks chars e n as a

/-- Inside a double-quoted attribute value a character that is no quote and
begins no reference joins the value, whatever follows it. -/
theorem foldl_value_cons (c d : Char) (m : List Char)
    (hc0 : c ≠ '\x00') (hcr : c ≠ '\r') (hcq : c ≠ '"') (hd0 : d ≠ '\x00') (hdr : d ≠ '\r')
    (hamp : c = '&' → opensReference (some d) = false)
    (toks : List Token) (chars : String) (e : Bool) (n : String)
    (as : List (String × String)) (k v : String) :
    (c :: d :: m).foldl step ⟨.attributeValueDoubleQuoted, toks, chars, e, n, as, some (k, v)⟩
      = (d :: m).foldl step
          ⟨.attributeValueDoubleQuoted, toks, chars, e, n, as, some (k, v.push c)⟩ := by
  simp only [List.foldl_cons]
  congr 1
  by_cases h2 : c = '&'
  · subst h2
    have h := hamp rfl
    simp [opensReference] at h
    simp [step, attributeValueDoubleQuotedStep, pushAttrValue, hd0, hdr, h]
  · simp [step, attributeValueDoubleQuotedStep, pushAttrValue, hc0, hcr, hcq, hd0, hdr, h2]

/-- A value without markup, met inside a double-quoted attribute value and
followed by the closing quote, becomes the end of that value. -/
theorem foldl_plainValue (l : List Char) (hl : plainValue l = true) (rest : List Char)
    (toks : List Token) (chars : String) (e : Bool) (n : String)
    (as : List (String × String)) (k v : String) :
    (l ++ '"' :: rest).foldl step
        ⟨.attributeValueDoubleQuoted, toks, chars, e, n, as, some (k, v)⟩
      = rest.foldl step
          ⟨.afterAttributeValueQuoted, toks, chars, e, n, as, some (k, v ++ String.mk l)⟩ := by
  induction l generalizing v with
  | nil =>
    have : v ++ String.mk [] = v := by apply String.ext; simp
    simp [this, step, attributeValueDoubleQuotedStep]
  | cons c cs ih =>
    simp only [plainValue, Bool.and_eq_true, bne_iff_ne, ne_eq, Bool.or_eq_true,
      Bool.not_eq_true'] at hl
    obtain ⟨⟨⟨⟨hc0, hcr⟩, hcq⟩, hamp⟩, hcs⟩ := hl
    have hpush : v.push c ++ String.mk cs = v ++ String.mk (c :: cs) := by
      apply String.ext; simp
    rw [← hpush, ← ih hcs]
    cases cs with
    | nil =>
      exact foldl_value_cons c '"' rest hc0 hcr hcq (by decide) (by decide)
        (fun _ => by decide) toks chars e n as k v
    | cons d ds =>
      simp only [plainValue, Bool.and_eq_true, bne_iff_ne, ne_eq] at hcs
      obtain ⟨⟨⟨⟨hd0, hdr⟩, _⟩, _⟩, _⟩ := hcs
      exact foldl_value_cons c d (ds ++ '"' :: rest) hc0 hcr hcq hd0 hdr
        (fun h => by simpa [h] using hamp) toks chars e n as k v

/-- The tokens of the markup of an unscoped item, for a record without markup. -/
theorem tokenize_unscopedItem (c : Category) (hid : plainValue c.id.data = true)
    (hname : plainText c.name.data = true) :
    tokenize (unscopedItem c)
      = some [Token.startTag "li" [],
              Token.startTag "a" [("href", "?category=" ++ c.id), ("+", "")],
              Token.text (" " ++ c.name), Token.endTag "a", Token.endTag "li"] := by
  have hdata : (unscopedItem c).data
      = ("<li ><a href=\"" ++ "?category=").data
          ++ (c.id.data ++ '"' :: ("+> ".data ++ (c.name.data ++ '<' :: "/a></li>".data))) := by
    simp [unscopedItem, String.data_append]
  have h1 : ("<li ><a href=\"" ++ "?category=").data.foldl step start
      = ⟨.attributeValueDoubleQuoted, [Token.startTag "li" []], "", false, "a", [],
          some ("href", "?category=")⟩ := by
    decide
  have h2 : ∀ v : String, "+> ".data.foldl step
      ⟨.afterAttributeValueQuoted, [Token.startTag "li" []], "", false, "a", [], some ("href", v)⟩
      = ⟨.data, [Token.startTag "li" [], Token.startTag "a" [("href", v), ("+", "")]], " ",
          false, "", [], none⟩ := by
    intro v
    simp [step, beforeAttributeNameStep, afterAttributeNameStep, isWhitespace, startAttr, emitTag,
      commitAttr, flushChars, dataStep, rawTextElements]
    refine ⟨?_, rfl⟩
    rw [if_neg (by decide)]
    rfl
  rw [tokenize, hdata, List.foldl_append, h1, foldl_plainValue _ hid, List.foldl_append, h2,
    foldl_plainText _ hname]
  have hne : ¬ (" " ++ String.mk c.name.data = "") := by
    intro h
    have h3 := congrArg String.data h
    simp at h3
  simp [step, dataStep, emitTag, flushChars, finish, isWhitespace, Char.isAlpha, Char.isUpper,
    Char.isLower, Char.toLower, hne]
  exact ⟨rfl, rfl⟩

/-- The list item that the markup of an unscoped item stands for, for a record
without markup. -/
theorem parseItem_unscopedItem (c : Category) (h : plainRecord c = true) :
    parseItem (unscopedItem c)
      = some { attrs := [], anchorAttrs := [("href", "?category=" ++ c.id), ("+", "")],
               anchorText := " " ++ c.name } := by
  simp only [plainRecord, Bool.and_eq_true] at h
  rw [parseItem, tokenize_unscopedItem c h.1 h.2]
  simp [readItem]

/-- Names with an ampersand or a less-than sign that is no markup are plain;
a name with a tag is not. -/
theorem plainRecord_examples :
    plainRecord ⟨"3", "Home & Garden", none⟩ = true
      ∧ plainRecord ⟨"4", "1 < 2", none⟩ = true
      ∧ plainRecord ⟨"1", "<b>Books</b>", none⟩ = false := by
  decide

/-- C2, evaluated on the code: the item appended by the person-scoped and the
type-scoped `success` callback does not depend on the `selected` field of the
record, and for the record `{id:5, name:"Music", selected:false}` the list item
has class `selected` all the same. -/
theorem scoped_item_ignores_selected :
    (∀ (id name : String) (s s' : Option Bool) (p : Page),
        (success Branch.person [⟨id, name, s⟩] p).listcategories
          = (success Branch.person [⟨id, name, s'⟩] p).listcategories)
      ∧ (∀ (id name : String) (s s' : Option Bool) (p : Page),
        (success Branch.type [⟨id, name, s⟩] p).listcategories
          = (success Branch.type [⟨id, name, s'⟩] p).listcategories)
      ∧ (parseItem (scopedItem ⟨"5", "Music", some false⟩)).map
          (fun item => hasClass "selected" item.attrs) = some true
      ∧ (parseItem (scopedItem ⟨"5", "Music", some true⟩)).map
          (fun item => hasClass "selected" item.attrs) = some true := by
  refine ⟨fun _ _ _ _ _ => rfl, fun _ _ _ _ _ => rfl, ?_, ?_⟩ <;> decide

/-- C7, as stated, fails: for the unscoped response
`[{id:1, name:"<b>Books</b>"}]` the character data of the appended item is
`" Books"`, which is not the name. -/
theorem unscoped_item_text_not_name :
    (success Branch.unscoped [⟨"1", "<b>Books</b>", none⟩]
        (freshPage emptyStorage)).listcategories.map
          (fun html => (tokenize html).map textContent) = [some " Books"]
      ∧ (success Branch.unscoped [⟨"1", "<b>Books</b>", none⟩]
        (freshPage emptyStorage)).listcategories.map
          (fun html => (tokenize html).map textContent) ≠ [some "<b>Books</b>"] := by
  decide

/-- C7, amended: for every unscoped response the `success` callback appends to
`#listcategories` exactly one piece of markup per record, in the order of the
response; and for every record whose `id` and `name` hold no markup, that
piece is one list item that holds one anchor whose `href` attribute is
`"?category=" + id` and whose text is `name`, white space before it aside. -/
theorem unscoped_success_items (data : List Category) (p : Page) :
    (success Branch.unscoped data p).listcategories
        = p.listcategories ++ data.map unscopedItem
      ∧ ∀ c ∈ data, plainRecord c = true →
          ∃ (item : ListItem) (space : String),
            parseItem (unscopedItem c) = some item
              ∧ getAttribute "href" item.anchorAttrs = some ("?category=" ++ c.id)
              ∧ (∀ x ∈ space.data, isWhitespace x = true)
              ∧ item.anchorText = space ++ c.name := by
  have hm : itemMarkup Branch.unscoped = unscopedItem := by
    funext c; rfl
  refine ⟨by rw [success_listcategories, hm], ?_⟩
  intro c _ hc
  refine ⟨_, " ", parseItem_unscopedItem c hc, ?_, by decide, rfl⟩
  simp [getAttribute, List.lookup]

theorem unscoped_success_items_witness :
    (success Branch.unscoped [⟨"1", "Books", none⟩, ⟨"2", "Films", none⟩]
          (freshPage emptyStorage)).listcategories
        = ["<li ><a href=\"?category=1\"+> Books</a></li>",
           "<li ><a href=\"?category=2\"+> Films</a></li>"]
      ∧ plainRecord ⟨"2", "Films", none⟩ = true
      ∧ ∃ (item : ListItem) (space : String),
          parseItem (unscopedItem ⟨"2", "Films", none⟩) = some item
            ∧ getAttribute "href" item.anchorAttrs = some ("?category=" ++ "2")
            ∧ (∀ x ∈ space.data, isWhitespace x = true)
            ∧ item.anchorText = space ++ "Films" :=
  ⟨(unscoped_success_items [⟨"1", "Books", none⟩, ⟨"2", "Films", none⟩]
      (freshPage emptyStorage)).1,
    by decide,
    (unscoped_success_items [⟨"1", "Books", none⟩, ⟨"2", "Films", none⟩]
      (freshPage emptyStorage)).2 ⟨"2", "Films", none⟩ (by simp) (by decide)⟩

end Html

/-! ## The CSRF header -/

namespace ResetPassword

/-- C10, evaluated on the code: for the URLs `//other.host/x` and
`HTTP://other.host/x` the `beforeSend` hook sets `X-CSRFToken` to the value of
the `csrftoken` cookie, as it does for the relative URL `/api/v1/categories/`;
only URLs that begin with `http:` or `https:` are left without the header. -/
theorem beforeSend_cross_origin_header :
    (∀ (decode : String → String) (cookie : String) (xhr : XMLHttpRequest),
        (beforeSend decode cookie xhr "//other.host/x").headers
            = xhr.headers ++ [("X-CSRFToken", getCookie decode cookie "csrftoken")]
          ∧ (beforeSend decode cookie xhr "HTTP://other.host/x").headers
            = xhr.headers ++ [("X-CSRFToken", getCookie decode cookie "csrftoken")]
          ∧ (beforeSend decode cookie xhr "/api/v1/categories/").headers
            = xhr.headers ++ [("X-CSRFToken", getCookie decode cookie "csrftoken")]
          ∧ (beforeSend decode cookie xhr "http://other.host/x").headers = xhr.headers
          ∧ (beforeSend decode cookie xhr "https://other.host/x").headers = xhr.headers)
      ∧ (beforeSend id "sessionid=1; csrftoken=abc" ⟨[]⟩ "//other.host/x").headers
          = [("X-CSRFToken", some "abc")]
      ∧ (beforeSend id "sessionid=1; csrftoken=abc" ⟨[]⟩ "HTTP://other.host/x").headers
          = [("X-CSRFToken", some "abc")] := by
  refine ⟨fun _ _ _ => ⟨rfl, rfl, rfl, rfl, rfl⟩, ?_, ?_⟩ <;> decide

end ResetPassword
